import Mathlib

/-!
Shallow embedding of the configuration-resolution and resource-name
generation engine of this repository:

* `src/config/resource-name-generator.ts` — the `ResourceNameGenerator`
  class (naming-convention applier, ECR-name normalizer, short hash,
  collision resolver, name-set generation and validation);
* the `ConfigurationResolver` module (`src/unnamed/part_003`) — stage
  lookup, override merging, resolver-side name generation and
  configuration validation;
* the shared interfaces (`src/unnamed/part_004`, `configuration-types`).

JavaScript strings are modelled as Lean `String`s (lists of characters),
JavaScript objects used as string-to-string maps as association lists,
JavaScript `Set<string>` as duplicate-free insertion-ordered lists, and
thrown exceptions as `Except` values.  The 32-bit signed integer
arithmetic of the hash function is modelled on `Int` with an explicit
reduction modulo 2^32.
-/

set_option maxRecDepth 16384

namespace ConfigEngine

/-! ### Character classes used by the naming rules -/

/-- Characters counted as lowercase letters or digits by the ECR rules:
the regex class `[a-z0-9]`. -/
def isLowerNum (c : Char) : Bool :=
  (97 ≤ c.toNat && c.toNat ≤ 122) || (48 ≤ c.toNat && c.toNat ≤ 57)

/-- The regex class `[a-zA-Z0-9]` used by the general AWS pattern. -/
def isAlnumChar (c : Char) : Bool :=
  (97 ≤ c.toNat && c.toNat ≤ 122) || (65 ≤ c.toNat && c.toNat ≤ 90) ||
    (48 ≤ c.toNat && c.toNat ≤ 57)

/-- The characters `.`, `_`, `-` — the class `[._-]` that
`normalizeEcrName` strips and collapses. -/
def isSpecChar (c : Char) : Bool :=
  c == '.' || c == '_' || c == '-'

/-- The regex class `[a-z0-9._\x2f-]` (lowercase letters, digits, dot,
underscore, slash, hyphen) of characters `normalizeEcrName` keeps
unchanged. -/
def isEcrAllowed (c : Char) : Bool :=
  isLowerNum c || c == '.' || c == '_' || c == '/' || c == '-'

/-! ### Identifier normalizer (`normalizeEcrName`) -/

/-- One character of the first `replace` of `normalizeEcrName`:
`name.replace(/[^a-z0-9._\x2f-]/g, '-')` replaces every character outside
the allowed class by a hyphen. -/
def replaceInvalidChar (c : Char) : Char :=
  if isEcrAllowed c then c else '-'

/-- The second `replace`, `/^[._-]+|[._-]+$/g` with the empty string:
remove the run of leading and the run of trailing special characters. -/
def stripSpecEnds (l : List Char) : List Char :=
  ((l.dropWhile isSpecChar).reverse.dropWhile isSpecChar).reverse

/-- State of the left-to-right scan implementing the third `replace`,
`/[._-]\x7b2,\x7d/g` with `'-'`: either no pending special character, one
pending special character (kept verbatim if its run has length one), or a
pending run of two or more special characters (emitted as one hyphen). -/
inductive RunState where
  | noRun : RunState
  | oneSpec (c : Char) : RunState
  | manySpec : RunState
deriving DecidableEq

/-- Scan for the third `replace` of `normalizeEcrName`: every maximal run
of two or more special characters becomes a single `'-'`; lone special
characters and all other characters are kept. -/
def collapseGo : RunState → List Char → List Char
  | .noRun, [] => []
  | .oneSpec p, [] => [p]
  | .manySpec, [] => ['-']
  | .noRun, c :: rest =>
    if isSpecChar c then collapseGo (.oneSpec c) rest
    else c :: collapseGo .noRun rest
  | .oneSpec p, c :: rest =>
    if isSpecChar c then collapseGo .manySpec rest
    else p :: c :: collapseGo .noRun rest
  | .manySpec, c :: rest =>
    if isSpecChar c then collapseGo .manySpec rest
    else '-' :: c :: collapseGo .noRun rest

/-- Replace every run of two or more consecutive `[._-]` characters by a
single hyphen (the third `replace` of `normalizeEcrName`). -/
def collapseSpecRuns (l : List Char) : List Char :=
  collapseGo .noRun l

/-- `ResourceNameGenerator.normalizeEcrName`: lowercase, replace
characters outside `[a-z0-9._\x2f-]` with `'-'`, strip leading/trailing
`[._-]` runs, collapse runs of two or more `[._-]` into one `'-'`. -/
def normalizeEcrName (s : String) : String :=
  ⟨collapseSpecRuns (stripSpecEnds ((s.data.map Char.toLower).map replaceInvalidChar))⟩

/-! ### Short hash (`generateShortHash`) -/

/-- Reduce an integer to the range of a 32-bit signed integer, as
JavaScript `| 0` / `& hash` coercion (`ToInt32`) does. -/
def toInt32 (n : Int) : Int :=
  let m := n % 4294967296
  if 2147483648 ≤ m then m - 4294967296 else m

/-- One step of the hash loop: `hash = ((hash << 5) - hash) + char;
hash = hash & hash`.  The shift operates on the 32-bit value and wraps;
the subtraction and addition are exact and the final `& hash` wraps the
result back to 32 bits. -/
def hashStep (h : Int) (c : Char) : Int :=
  toInt32 (toInt32 (h * 32) - h + (c.toNat : Int))

/-- The accumulated hash of a string, starting from 0. -/
def hashValue (l : List Char) : Int :=
  l.foldl hashStep 0

/-- Digit characters of JavaScript `Number.prototype.toString(36)`:
`0`–`9` then `a`–`z`. -/
def digitChar36 (d : Nat) : Char :=
  if d < 10 then Char.ofNat (48 + d) else Char.ofNat (87 + d)

/-- Base-36 digit list of a natural number, most significant digit
first, with an explicit fuel argument (the number itself bounds the
number of divisions). -/
def toBase36Go : Nat → Nat → List Char → List Char
  | 0, _, acc => acc
  | fuel + 1, n, acc =>
    let acc1 := digitChar36 (n % 36) :: acc
    if n < 36 then acc1 else toBase36Go fuel (n / 36) acc1

/-- JavaScript `n.toString(36)` for a natural number. -/
def toBase36 (n : Nat) : List Char :=
  toBase36Go (n + 1) n []

/-- `ResourceNameGenerator.generateShortHash`: the 32-bit string hash,
absolute value, base-36, truncated by `substring(0, 6)` to at most six
characters. -/
def generateShortHash (s : String) : String :=
  ⟨(toBase36 (hashValue s.data).natAbs).take 6⟩

/-! ### Data model (`configuration-types`) -/

/-- JavaScript `String.prototype.trim`: remove leading and trailing
whitespace. -/
def trimString (s : String) : String :=
  ⟨((s.data.dropWhile Char.isWhitespace).reverse.dropWhile Char.isWhitespace).reverse⟩

/-- The `namingConvention` record of an `EnvironmentConfig`.  The two
flags are named `useStagePrefix` and `useStageSuffix` in the source. -/
structure NamingConvention where
  useStagePrefixFlag : Bool
  useStageSuffixFlag : Bool
  separator : String
deriving DecidableEq

/-- `ApplicationConfig` of `configuration-types` — the base
configuration.  `dockerBuildArgs` (a string-keyed object) is modelled as
an association list in insertion order. -/
structure ApplicationConfig where
  applicationName : String
  applicationDisplayName : String
  sourceDirectory : String
  ecrRepositoryName : String
  dockerfilePath : String
  containerPort : Int
  healthCheckPath : String
  serviceName : String
  clusterNameSuffix : String
  taskDefinitionFamily : String
  albName : String
  targetGroupName : String
  buildCommands : List String
  dockerBuildArgs : List (String × String)
deriving DecidableEq

/-- `Partial<ApplicationConfig>` — the `applicationOverrides` record of
an `EnvironmentConfig`: every field optional, present fields replace the
base field wholesale under object spread. -/
structure ApplicationOverrides where
  applicationName : Option String := none
  applicationDisplayName : Option String := none
  sourceDirectory : Option String := none
  ecrRepositoryName : Option String := none
  dockerfilePath : Option String := none
  containerPort : Option Int := none
  healthCheckPath : Option String := none
  serviceName : Option String := none
  clusterNameSuffix : Option String := none
  taskDefinitionFamily : Option String := none
  albName : Option String := none
  targetGroupName : Option String := none
  buildCommands : Option (List String) := none
  dockerBuildArgs : Option (List (String × String)) := none
deriving DecidableEq

/-- The `buildOverrides` record of an `EnvironmentConfig`. -/
structure BuildOverrides where
  dockerBuildArgs : Option (List (String × String)) := none
  buildCommands : Option (List String) := none
deriving DecidableEq

/-- `EnvironmentConfig` of `configuration-types`. -/
structure EnvironmentConfig where
  stage : String
  namingConvention : NamingConvention
  applicationOverrides : Option ApplicationOverrides := none
  buildOverrides : Option BuildOverrides := none
deriving DecidableEq

/-- `ResourceNames` — the nine generated identifiers. -/
structure ResourceNames where
  ecrRepositoryName : String
  clusterName : String
  serviceName : String
  taskDefinitionFamily : String
  albName : String
  targetGroupName : String
  logGroupName : String
  albSecurityGroupName : String
  ecsSecurityGroupName : String
deriving DecidableEq

/-- `ResolvedApplicationConfig extends ApplicationConfig` with the
resolved stage and the generated resource names. -/
structure ResolvedApplicationConfig extends ApplicationConfig where
  resolvedStage : String
  resourceNames : ResourceNames
deriving DecidableEq

/-- `Object.values` of a `ResourceNames` object, in declaration order. -/
def ResourceNames.valuesList (rn : ResourceNames) : List String :=
  [rn.ecrRepositoryName, rn.clusterName, rn.serviceName,
   rn.taskDefinitionFamily, rn.albName, rn.targetGroupName,
   rn.logGroupName, rn.albSecurityGroupName, rn.ecsSecurityGroupName]

/-! ### Naming rule catalog (`AWS_NAMING_RULES`) -/

/-- The keys of `AWS_NAMING_RULES.LENGTH_LIMITS` — the resource classes
with their own length limit and validation pattern. -/
inductive ResourceType where
  | ecrRepositoryName
  | clusterName
  | serviceName
  | taskDefinitionFamily
  | albName
  | targetGroupName
  | logGroupName
  | securityGroupName
deriving DecidableEq

/-- `AWS_NAMING_RULES.LENGTH_LIMITS`. -/
def lengthLimit : ResourceType → Nat
  | .ecrRepositoryName => 256
  | .clusterName => 255
  | .serviceName => 255
  | .taskDefinitionFamily => 255
  | .albName => 32
  | .targetGroupName => 32
  | .logGroupName => 512
  | .securityGroupName => 255

/-- `AWS_NAMING_RULES.RESERVED_PREFIXES`. -/
def RESERVED_PREFIXES : List String := ["aws", "amazon", "ecs", "ec2"]

/-- `AWS_NAMING_RULES.GENERAL_PATTERN`, the regex
`^[a-zA-Z0-9][a-zA-Z0-9-]*[a-zA-Z0-9]$`: first and last character
alphanumeric (so at least two characters), interior characters
alphanumeric or hyphen. -/
def generalPattern (s : String) : Bool :=
  match s.data with
  | [] => false
  | c :: cs =>
    match cs.getLast? with
    | none => false
    | some d =>
      isAlnumChar c && isAlnumChar d &&
        cs.dropLast.all (fun e => isAlnumChar e || e == '-')

/-- `AWS_NAMING_RULES.LOG_GROUP_PATTERN`, the regex
`^[a-zA-Z0-9._\x2f-]+$`: nonempty, every character alphanumeric or one
of dot, underscore, slash, hyphen. -/
def logGroupPattern (s : String) : Bool :=
  !s.data.isEmpty &&
    s.data.all (fun c => isAlnumChar c || c == '.' || c == '_' || c == '/' || c == '-')

/-- Separator characters of the ECR pattern: `.`, `_`, `-` inside a path
component and `/` between components. -/
def isEcrSepChar (c : Char) : Bool :=
  c == '.' || c == '_' || c == '-' || c == '/'

/-- Scanner for `AWS_NAMING_RULES.ECR_PATTERN`, the regex
`^[a-z0-9]+(?:[._-][a-z0-9]+)*(?:\x2f[a-z0-9]+(?:[._-][a-z0-9]+)*)*$`.
The language is exactly: nonempty runs of `[a-z0-9]` separated by single
separator characters, beginning and ending with a run.  The Boolean
argument records whether the previous character was in `[a-z0-9]` (so a
separator or the end of the string is currently acceptable). -/
def ecrGo : Bool → List Char → Bool
  | ok, [] => ok
  | ok, c :: rest =>
    if isLowerNum c then ecrGo true rest
    else if ok && isEcrSepChar c then ecrGo false rest
    else false

/-- `AWS_NAMING_RULES.ECR_PATTERN` as a whole-string match. -/
def ecrPattern (s : String) : Bool :=
  ecrGo false s.data

/-- Pattern applied to a resource class by
`ResourceNameGenerator.isValidResourceName`'s `switch`. -/
def patternFor : ResourceType → String → Bool
  | .ecrRepositoryName => ecrPattern
  | .logGroupName => logGroupPattern
  | _ => generalPattern

/-- `ResourceNameGenerator.isValidResourceName`: reject empty names,
names over the class's length limit, and names not matching the class's
pattern. -/
def isValidResourceName (name : String) (rt : ResourceType) : Bool :=
  if name == "" then false
  else if lengthLimit rt < name.length then false
  else patternFor rt name

/-- Case-insensitive reserved-prefix test used by
`validateResourceNames`: `name.toLowerCase().startsWith(prefix.toLowerCase())`. -/
def hasReservedPrefix (name : String) : Bool :=
  RESERVED_PREFIXES.any fun p =>
    (name.data.map Char.toLower).take (p.data.map Char.toLower).length
      == p.data.map Char.toLower

/-! ### Resource name generator (`ResourceNameGenerator`) -/

/-- `CollisionResolutionStrategy`. -/
inductive CollisionResolutionStrategy where
  | NUMERIC_SUFFIX
  | HASH_SUFFIX
  | ERROR
deriving DecidableEq

/-- `ResourceNameGeneratorConfig`. -/
structure ResourceNameGeneratorConfig where
  collisionResolution : CollisionResolutionStrategy
  maxCollisionAttempts : Nat
  validateAwsRules : Bool
  checkReservedPrefixes : Bool
deriving DecidableEq

/-- `DEFAULT_GENERATOR_CONFIG`. -/
def DEFAULT_GENERATOR_CONFIG : ResourceNameGeneratorConfig :=
  { collisionResolution := .NUMERIC_SUFFIX
    maxCollisionAttempts := 10
    validateAwsRules := true
    checkReservedPrefixes := true }

/-- Structured content of the error strings pushed by
`ResourceNameGenerator.validateResourceNames`: an invalid name for a
field, or the list of duplicated values. -/
inductive NameIssue where
  | invalidName (field : String) (name : String)
  | duplicateNames (names : List String)
deriving DecidableEq

/-- Errors thrown by the generator (`throw new Error(...)` sites). -/
inductive GenErr where
  | nameTooLong (baseName : String) (rt : ResourceType)
  | namingConflict (baseName : String)
  | unresolvableCollision (baseName : String) (attempts : Nat)
  | invalidGeneratedName (errors : List NameIssue)
deriving DecidableEq

/-- `ValidationResult` as produced by the generator, with errors kept in
structured form. -/
structure GenValidationResult where
  isValid : Bool
  errors : List NameIssue
  warnings : List String
deriving DecidableEq

/-- JavaScript `Set.prototype.add` on an insertion-ordered
duplicate-free list. -/
def addName (s : List String) (n : String) : List String :=
  if s.contains n then s else s ++ [n]

/-- Add every name of `ns` to the set, in order (`forEach ... add`). -/
def addNames (s : List String) (ns : List String) : List String :=
  ns.foldl addName s

/-- The later duplicates of a list, as computed by
`nameValues.filter((name, index) => nameValues.indexOf(name) !== index)`:
every element whose index differs from the index of its first
occurrence. -/
def laterDuplicates (l : List String) : List String :=
  (l.enum.filter fun p => l.indexOf p.2 != p.1).map fun p => p.2

/-- The `Object.entries` traversal of a `ResourceNames` object as used
by `validateResourceNames`, with the field name and the resource class
used for validation (both security-group fields map to the
`securityGroupName` class). -/
def ResourceNames.entriesList (rn : ResourceNames) : List (String × ResourceType × String) :=
  [("ecrRepositoryName", .ecrRepositoryName, rn.ecrRepositoryName),
   ("clusterName", .clusterName, rn.clusterName),
   ("serviceName", .serviceName, rn.serviceName),
   ("taskDefinitionFamily", .taskDefinitionFamily, rn.taskDefinitionFamily),
   ("albName", .albName, rn.albName),
   ("targetGroupName", .targetGroupName, rn.targetGroupName),
   ("logGroupName", .logGroupName, rn.logGroupName),
   ("albSecurityGroupName", .securityGroupName, rn.albSecurityGroupName),
   ("ecsSecurityGroupName", .securityGroupName, rn.ecsSecurityGroupName)]

/-- `ResourceNameGenerator.validateResourceNames`: an error for every
field whose name fails `isValidResourceName` for its class, an error
listing duplicated values when any value occurs twice, and a
reserved-prefix warning per offending field when enabled. -/
def ResourceNameGenerator.validateResourceNames
    (cfg : ResourceNameGeneratorConfig) (rn : ResourceNames) : GenValidationResult :=
  let entryErrors :=
    (rn.entriesList.filter fun e => !isValidResourceName e.2.2 e.2.1).map
      fun e => NameIssue.invalidName e.1 e.2.2
  let dups := laterDuplicates rn.valuesList
  let dupErrors : List NameIssue :=
    if dups.isEmpty then [] else [NameIssue.duplicateNames dups]
  let errors := entryErrors ++ dupErrors
  let warnings :=
    if cfg.checkReservedPrefixes then
      (rn.entriesList.filter fun e => hasReservedPrefix e.2.2).map fun e => e.1
    else []
  { isValid := errors.isEmpty, errors := errors, warnings := warnings }

/-- The `while (attempt < maxCollisionAttempts)` loop of
`generateUniqueName`, with the remaining number of attempts as fuel.
`attempt` has already been incremented when the candidate is built. -/
def collisionLoop (cfg : ResourceNameGeneratorConfig) (existing : List String)
    (baseName : String) (rt : ResourceType) : Nat → Nat → Except GenErr String
  | _, 0 => .error (.unresolvableCollision baseName cfg.maxCollisionAttempts)
  | attempt, fuel + 1 =>
    let attempt1 := attempt + 1
    if cfg.collisionResolution == .ERROR then .error (.namingConflict baseName)
    else
      let candidate :=
        match cfg.collisionResolution with
        | .NUMERIC_SUFFIX => baseName ++ "-" ++ Nat.repr attempt1
        | .HASH_SUFFIX => baseName ++ "-" ++ generateShortHash (baseName ++ Nat.repr attempt1)
        | .ERROR => baseName
      if !existing.contains candidate && isValidResourceName candidate rt then
        .ok candidate
      else collisionLoop cfg existing baseName rt attempt1 fuel

/-- `ResourceNameGenerator.generateUniqueName`: fail at once when the
base name exceeds the class's length limit; return the base name when it
is free and valid; otherwise run the collision-resolution loop. -/
def ResourceNameGenerator.generateUniqueName (cfg : ResourceNameGeneratorConfig)
    (existing : List String) (baseName : String) (rt : ResourceType) :
    Except GenErr String :=
  if lengthLimit rt < baseName.length then
    .error (.nameTooLong baseName rt)
  else if !existing.contains baseName && isValidResourceName baseName rt then
    .ok baseName
  else
    collisionLoop cfg existing baseName rt 0 cfg.maxCollisionAttempts

/-- `NameGenerationContext`. -/
structure NameGenContext where
  applicationConfig : ApplicationConfig
  stage : String
  environmentConfig : Option EnvironmentConfig := none
  existingNames : Option (List String) := none

/-- The generator's `applyNaming` helper: stage qualification is applied
only when the stage is nonempty and not all whitespace
(`if (stage && stage.trim())`). -/
def applyNamingGen (stage : String) (conv : NamingConvention) (baseName : String) : String :=
  if stage == "" || trimString stage == "" then baseName
  else
    let n1 :=
      if conv.useStagePrefixFlag then stage ++ conv.separator ++ baseName else baseName
    if conv.useStageSuffixFlag then n1 ++ conv.separator ++ stage else n1

/-- Merging of `context.existingNames` into the generator's set at the
start of `generateResourceNames`. -/
def mergeContextNames (existing : List String) (ctx : NameGenContext) : List String :=
  match ctx.existingNames with
  | some ns => addNames existing ns
  | none => existing

/-- The nine name generations of
`ResourceNameGenerator.generateResourceNames`, in source order, each
through `generateUniqueName` except the log group name, which is built
directly as a path. -/
def buildResourceNames (cfg : ResourceNameGeneratorConfig) (existing : List String)
    (ctx : NameGenContext) : Except GenErr ResourceNames := do
  let conv :=
    match ctx.environmentConfig with
    | some ec => ec.namingConvention
    | none =>
      { useStagePrefixFlag := false, useStageSuffixFlag := true, separator := "-" }
  let appCfg := ctx.applicationConfig
  let naming := fun b => applyNamingGen ctx.stage conv b
  let ecr ← ResourceNameGenerator.generateUniqueName cfg existing
    (normalizeEcrName (naming appCfg.ecrRepositoryName)) .ecrRepositoryName
  let cluster ← ResourceNameGenerator.generateUniqueName cfg existing
    (naming (appCfg.applicationName ++ "-" ++ appCfg.clusterNameSuffix)) .clusterName
  let service ← ResourceNameGenerator.generateUniqueName cfg existing
    (naming appCfg.serviceName) .serviceName
  let task ← ResourceNameGenerator.generateUniqueName cfg existing
    (naming appCfg.taskDefinitionFamily) .taskDefinitionFamily
  let alb ← ResourceNameGenerator.generateUniqueName cfg existing
    (naming appCfg.albName) .albName
  let tg ← ResourceNameGenerator.generateUniqueName cfg existing
    (naming appCfg.targetGroupName) .targetGroupName
  let logGroup := "/aws/ecs/" ++ naming appCfg.applicationName
  let albSg ← ResourceNameGenerator.generateUniqueName cfg existing
    (naming (appCfg.applicationName ++ "-alb-sg")) .securityGroupName
  let ecsSg ← ResourceNameGenerator.generateUniqueName cfg existing
    (naming (appCfg.applicationName ++ "-ecs-sg")) .securityGroupName
  pure
    { ecrRepositoryName := ecr, clusterName := cluster, serviceName := service
      taskDefinitionFamily := task, albName := alb, targetGroupName := tg
      logGroupName := logGroup, albSecurityGroupName := albSg
      ecsSecurityGroupName := ecsSg }

/-- Tail of `generateResourceNames`: validate the freshly generated set,
throw when invalid, and only on success add all nine values to the
generator's existing-names set.  The second component is the
existing-names set after the call (the merge of `context.existingNames`
has already happened whether or not the call throws). -/
def finishGeneration (cfg : ResourceNameGeneratorConfig) (existing : List String)
    (result : Except GenErr ResourceNames) :
    Except GenErr ResourceNames × List String :=
  match result with
  | .error e => (.error e, existing)
  | .ok rn =>
    let v := ResourceNameGenerator.validateResourceNames cfg rn
    if v.isValid then (.ok rn, addNames existing rn.valuesList)
    else (.error (.invalidGeneratedName v.errors), existing)

/-- `ResourceNameGenerator.generateResourceNames`.  The first component
is the returned name set or the thrown error; the second component is
the generator's existing-names set after the call (`this.existingNames`,
a mutable field in the source). -/
def ResourceNameGenerator.generateResourceNames (cfg : ResourceNameGeneratorConfig)
    (existing0 : List String) (ctx : NameGenContext) :
    Except GenErr ResourceNames × List String :=
  let existing := mergeContextNames existing0 ctx
  finishGeneration cfg existing (buildResourceNames cfg existing ctx)

/-! ### Configuration resolver (`ConfigurationResolver`) -/

/-- Property access on a string-keyed JavaScript object modelled as an
association list: the value at the first matching key. -/
def lookupArg (args : List (String × String)) (k : String) : Option String :=
  (args.find? fun p => p.1 == k).map fun p => p.2

/-- One base entry of a JavaScript object spread: the key keeps its
base position, the value is replaced when the override has the key. -/
def overrideEntry (ovr : List (String × String)) (p : String × String) : String × String :=
  match lookupArg ovr p.1 with
  | some v => (p.1, v)
  | none => p

/-- JavaScript object spread `\x7b ...base, ...ovr \x7d` on two
string-to-string maps: base keys in base order, each with the override
value when the override has the key, followed by the override-only keys
in override order. -/
def spreadMerge (base ovr : List (String × String)) : List (String × String) :=
  base.map (overrideEntry ovr) ++ ovr.filter fun p => (lookupArg base p.1).isNone

/-- Spread of `envConfig.applicationOverrides` onto the base
configuration: every present override field replaces the base field. -/
def applyApplicationOverrides (base : ApplicationConfig) (o : ApplicationOverrides) :
    ApplicationConfig :=
  { applicationName := o.applicationName.getD base.applicationName
    applicationDisplayName := o.applicationDisplayName.getD base.applicationDisplayName
    sourceDirectory := o.sourceDirectory.getD base.sourceDirectory
    ecrRepositoryName := o.ecrRepositoryName.getD base.ecrRepositoryName
    dockerfilePath := o.dockerfilePath.getD base.dockerfilePath
    containerPort := o.containerPort.getD base.containerPort
    healthCheckPath := o.healthCheckPath.getD base.healthCheckPath
    serviceName := o.serviceName.getD base.serviceName
    clusterNameSuffix := o.clusterNameSuffix.getD base.clusterNameSuffix
    taskDefinitionFamily := o.taskDefinitionFamily.getD base.taskDefinitionFamily
    albName := o.albName.getD base.albName
    targetGroupName := o.targetGroupName.getD base.targetGroupName
    buildCommands := o.buildCommands.getD base.buildCommands
    dockerBuildArgs := o.dockerBuildArgs.getD base.dockerBuildArgs }

/-- Application of `envConfig.buildOverrides`: `buildCommands` replaces
the base list wholesale; `dockerBuildArgs` is spread-merged key by key
onto the base mapping. -/
def applyBuildOverrides (cfg : ApplicationConfig) (b : BuildOverrides) :
    ApplicationConfig :=
  let cfg1 :=
    match b.buildCommands with
    | some cs => { cfg with buildCommands := cs }
    | none => cfg
  match b.dockerBuildArgs with
  | some args => { cfg1 with dockerBuildArgs := spreadMerge cfg1.dockerBuildArgs args }
  | none => cfg1

/-- The resolver's inline `applyNaming` helper
(`ConfigurationResolver.generateResourceNames`).  Unlike the generator's
helper, it applies the convention unconditionally — there is no
empty-stage guard. -/
def applyNamingRes (stage : String) (conv : NamingConvention) (baseName : String) : String :=
  let n1 :=
    if conv.useStagePrefixFlag then stage ++ conv.separator ++ baseName else baseName
  if conv.useStageSuffixFlag then n1 ++ conv.separator ++ stage else n1

/-- `ConfigurationResolver.generateResourceNames`: pure construction of
the nine names from the merged configuration, the stage, and the
environment's naming convention (default: no prefix, stage suffix,
separator `-`). -/
def ConfigurationResolver.generateResourceNames (config : ApplicationConfig)
    (stage : String) (envConfig : Option EnvironmentConfig) : ResourceNames :=
  let conv :=
    match envConfig with
    | some ec => ec.namingConvention
    | none =>
      { useStagePrefixFlag := false, useStageSuffixFlag := true, separator := "-" }
  let naming := fun b => applyNamingRes stage conv b
  { ecrRepositoryName := naming config.ecrRepositoryName
    clusterName := naming (config.applicationName ++ "-" ++ config.clusterNameSuffix)
    serviceName := naming config.serviceName
    taskDefinitionFamily := naming config.taskDefinitionFamily
    albName := naming config.albName
    targetGroupName := naming config.targetGroupName
    logGroupName := "/aws/ecs/" ++ naming config.applicationName
    albSecurityGroupName := naming (config.applicationName ++ "-alb-sg")
    ecsSecurityGroupName := naming (config.applicationName ++ "-ecs-sg") }

/-- Structured content of the error strings pushed by the resolver's
validation methods. -/
inductive CfgIssue where
  | missingRequiredField (field : String)
  | awsNamingViolation (field : String)
  | generatedNameTooLong (field : String) (value : String) (limit : Nat)
  | invalidPort (port : Int)
  | invalidHealthCheckPath (path : String)
deriving DecidableEq

/-- `ValidationResult` as produced by the resolver. -/
structure CfgValidationResult where
  isValid : Bool
  errors : List CfgIssue
  warnings : List String
deriving DecidableEq

/-- The seven required fields checked by `validateRequiredFields`, with
their values. -/
def requiredFieldEntries (c : ResolvedApplicationConfig) : List (String × String) :=
  [("applicationName", c.applicationName),
   ("sourceDirectory", c.sourceDirectory),
   ("ecrRepositoryName", c.ecrRepositoryName),
   ("serviceName", c.serviceName),
   ("taskDefinitionFamily", c.taskDefinitionFamily),
   ("albName", c.albName),
   ("targetGroupName", c.targetGroupName)]

/-- `validateRequiredFields`: an error per required field that is empty
or all whitespace (`!value || value.trim().length === 0`). -/
def validateRequiredFields (c : ResolvedApplicationConfig) : List CfgIssue :=
  ((requiredFieldEntries c).filter fun p =>
    p.2 == "" || trimString p.2 == "").map fun p => .missingRequiredField p.1

/-- The five base identifier fields pattern-checked by
`validateAwsNamingConventions`. -/
def awsPatternEntries (c : ResolvedApplicationConfig) : List (String × String) :=
  [("ecrRepositoryName", c.ecrRepositoryName),
   ("serviceName", c.serviceName),
   ("taskDefinitionFamily", c.taskDefinitionFamily),
   ("albName", c.albName),
   ("targetGroupName", c.targetGroupName)]

/-- The `nameLengthLimits` table of `validateAwsNamingConventions`, with
the corresponding generated names: only five of the nine members of
`resourceNames` are length-checked. -/
def lengthCheckedEntries (rn : ResourceNames) : List (String × String × Nat) :=
  [("ecrRepositoryName", rn.ecrRepositoryName, 256),
   ("serviceName", rn.serviceName, 255),
   ("taskDefinitionFamily", rn.taskDefinitionFamily, 255),
   ("albName", rn.albName, 32),
   ("targetGroupName", rn.targetGroupName, 32)]

/-- `validateAwsNamingConventions`: a pattern error for every nonempty
base identifier that fails the general AWS pattern, then a length error
for every checked generated name that exceeds its limit. -/
def validateAwsNamingConventions (c : ResolvedApplicationConfig) : List CfgIssue :=
  ((awsPatternEntries c).filter fun p =>
    !(p.2 == "") && !generalPattern p.2).map (fun p => .awsNamingViolation p.1) ++
  ((lengthCheckedEntries c.resourceNames).filter fun p =>
    !(p.2.1 == "") && p.2.2 < p.2.1.length).map
      fun p => .generatedNameTooLong p.1 p.2.1 p.2.2

/-- `validatePortConfiguration`: `containerPort` must lie in
`[1, 65535]` (the `Number.isInteger` test cannot fail for an `Int`). -/
def validatePortConfiguration (c : ResolvedApplicationConfig) : List CfgIssue :=
  if c.containerPort < 1 || 65535 < c.containerPort then
    [.invalidPort c.containerPort]
  else []

/-- Error part of `validatePaths`: a nonempty `healthCheckPath` must
start with `/`. -/
def validatePathErrors (c : ResolvedApplicationConfig) : List CfgIssue :=
  if !(c.healthCheckPath == "") && !(c.healthCheckPath.data.take 1 == ['/']) then
    [.invalidHealthCheckPath c.healthCheckPath]
  else []

/-- JavaScript `path.includes('..')`: two consecutive dots occur. -/
def hasDoubleDot : List Char → Bool
  | [] => false
  | [_] => false
  | a :: b :: rest => (a == '.' && b == '.') || hasDoubleDot (b :: rest)

/-- Warning part of `validatePaths`: a `dockerfilePath` containing `..`
draws a warning. -/
def validatePathWarnings (c : ResolvedApplicationConfig) : List String :=
  if !(c.dockerfilePath == "") && hasDoubleDot c.dockerfilePath.data then
    ["Dockerfile path contains double dots"]
  else []

/-- Warning part of `validateBuildConfiguration`: an empty build-command
list draws a warning.  (The docker-build-arg type check of the source
cannot fail in this embedding, where every value is a string.) -/
def validateBuildWarnings (c : ResolvedApplicationConfig) : List String :=
  if c.buildCommands.isEmpty then
    ["No build commands specified, build may fail"]
  else []

/-- The resolver's `validateResourceNames`: duplicated generated names
draw a warning only. -/
def validateResourceNameWarnings (c : ResolvedApplicationConfig) : List String :=
  let dups := laterDuplicates c.resourceNames.valuesList
  if dups.isEmpty then [] else ["Duplicate resource names detected"]

/-- `ConfigurationResolver.validateConfiguration`: all error checks are
run and collected in source order; warnings never affect `isValid`. -/
def ConfigurationResolver.validateConfiguration (c : ResolvedApplicationConfig) :
    CfgValidationResult :=
  let errors :=
    validateRequiredFields c ++ validateAwsNamingConventions c ++
      validatePortConfiguration c ++ validatePathErrors c
  let warnings :=
    validatePathWarnings c ++ validateBuildWarnings c ++
      validateResourceNameWarnings c
  { isValid := errors.isEmpty, errors := errors, warnings := warnings }

/-- Errors thrown by `resolveConfiguration`: the empty-stage guard and
the aggregated validation failure. -/
inductive ResolveErr where
  | emptyStage
  | validationFailed (stage : String) (errors : List CfgIssue)
deriving DecidableEq

instance {ε α : Type} [DecidableEq ε] [DecidableEq α] : DecidableEq (Except ε α) := fun x y =>
  match x, y with
  | .ok a, .ok b => if h : a = b then .isTrue (by rw [h]) else .isFalse (by simp [h])
  | .error a, .error b => if h : a = b then .isTrue (by rw [h]) else .isFalse (by simp [h])
  | .ok _, .error _ => .isFalse (by simp)
  | .error _, .ok _ => .isFalse (by simp)

/-- Result of `resolveConfiguration` together with whether the
unknown-stage warning was logged (`console.warn` in the source). -/
structure ResolveOutcome where
  result : Except ResolveErr ResolvedApplicationConfig
  warnedUnknownStage : Bool
deriving DecidableEq

/-- The resolver's stage lookup: `new Map(envConfigs.map(c => [c.stage, c]))`
followed by `get(stage)` — the last entry for a stage wins. -/
def ConfigurationResolver.lookupEnvConfig (envConfigs : List EnvironmentConfig)
    (stage : String) : Option EnvironmentConfig :=
  envConfigs.foldl (fun acc c => if c.stage == stage then some c else acc) none

/-- `ConfigurationResolver.resolveConfiguration`: reject an empty stage;
look the stage up in the override table; merge application and build
overrides when an entry exists, otherwise warn and keep the base
configuration; generate resource names; validate; throw on any
validation error. -/
def ConfigurationResolver.resolveConfiguration (defaultConfig : ApplicationConfig)
    (envConfigs : List EnvironmentConfig) (stage : String) : ResolveOutcome :=
  if stage == "" then { result := .error .emptyStage, warnedUnknownStage := false }
  else
    let envConfig := ConfigurationResolver.lookupEnvConfig envConfigs stage
    let resolvedConfig :=
      match envConfig with
      | some ec =>
        let c1 :=
          match ec.applicationOverrides with
          | some ao => applyApplicationOverrides defaultConfig ao
          | none => defaultConfig
        match ec.buildOverrides with
        | some bo => applyBuildOverrides c1 bo
        | none => c1
      | none => defaultConfig
    let warned := envConfig.isNone
    let resourceNames := ConfigurationResolver.generateResourceNames resolvedConfig stage envConfig
    let resolved : ResolvedApplicationConfig :=
      { toApplicationConfig := resolvedConfig
        resolvedStage := stage
        resourceNames := resourceNames }
    let validation := ConfigurationResolver.validateConfiguration resolved
    if validation.isValid then { result := .ok resolved, warnedUnknownStage := warned }
    else
      { result := .error (.validationFailed stage validation.errors)
        warnedUnknownStage := warned }

/-! ### Concrete instances used to exercise the definitions -/

/-- Test whether a resolution result is a success. -/
def resolveOk : Except ResolveErr ResolvedApplicationConfig → Bool
  | .ok _ => true
  | .error _ => false

/-- A small well-formed base configuration. -/
def validBase : ApplicationConfig :=
  { applicationName := "svc", applicationDisplayName := "Svc"
    sourceDirectory := "svc", ecrRepositoryName := "svc"
    dockerfilePath := "Dockerfile", containerPort := 3000
    healthCheckPath := "/health", serviceName := "svc-service"
    clusterNameSuffix := "cluster", taskDefinitionFamily := "svc-task"
    albName := "svc-alb", targetGroupName := "svc-tg"
    buildCommands := ["npm ci"], dockerBuildArgs := [("B", "2")] }

/-- The resolution of `validBase` for stage `beta` with an empty
override table. -/
def svcResolvedW : ResolvedApplicationConfig :=
  { toApplicationConfig := validBase
    resolvedStage := "beta"
    resourceNames :=
      { ecrRepositoryName := "svc-beta", clusterName := "svc-cluster-beta"
        serviceName := "svc-service-beta", taskDefinitionFamily := "svc-task-beta"
        albName := "svc-alb-beta", targetGroupName := "svc-tg-beta"
        logGroupName := "/aws/ecs/svc-beta"
        albSecurityGroupName := "svc-alb-sg-beta"
        ecsSecurityGroupName := "svc-ecs-sg-beta" } }

/-- An environment configuration for stage `prod` whose build overrides
set one docker build argument. -/
def prodEnv : EnvironmentConfig :=
  { stage := "prod"
    namingConvention :=
      { useStagePrefixFlag := false, useStageSuffixFlag := true, separator := "-" }
    buildOverrides := some { dockerBuildArgs := some [("A", "1")] } }

/-- The resolution of `validBase` for stage `prod` under `prodEnv`. -/
def prodResolvedW : ResolvedApplicationConfig :=
  { toApplicationConfig := { validBase with dockerBuildArgs := [("B", "2"), ("A", "1")] }
    resolvedStage := "prod"
    resourceNames :=
      { ecrRepositoryName := "svc-prod", clusterName := "svc-cluster-prod"
        serviceName := "svc-service-prod", taskDefinitionFamily := "svc-task-prod"
        albName := "svc-alb-prod", targetGroupName := "svc-tg-prod"
        logGroupName := "/aws/ecs/svc-prod"
        albSecurityGroupName := "svc-alb-sg-prod"
        ecsSecurityGroupName := "svc-ecs-sg-prod" } }

/-- A 30-character stage name, long enough to push the generated load
balancer and target group names past their 32-character limits. -/
def longStage : String := "stagestagestagestagestagestage"

/-- Name-generation context for `validBase` at stage `beta`. -/
def genCtxW : NameGenContext :=
  { applicationConfig := validBase, stage := "beta" }

/-- A base configuration whose task family collides with its ECR name
after stage qualification. -/
def dupBase : ApplicationConfig :=
  { validBase with taskDefinitionFamily := "svc" }

/-- Context producing a duplicate generated name (`svc-beta` twice),
with one context name to be merged. -/
def dupCtx : NameGenContext :=
  { applicationConfig := dupBase, stage := "beta", existingNames := some ["w"] }

/-- A resolved configuration whose generated cluster name is 300
characters long while every length-checked field is short. -/
def overlongClusterConfig : ResolvedApplicationConfig :=
  { toApplicationConfig := validBase
    resolvedStage := "beta"
    resourceNames :=
      { ecrRepositoryName := "svc-beta", clusterName := ⟨List.replicate 300 'a'⟩
        serviceName := "svc-service-beta", taskDefinitionFamily := "svc-task-beta"
        albName := "svc-alb-beta", targetGroupName := "svc-tg-beta"
        logGroupName := "/aws/ecs/svc-beta"
        albSecurityGroupName := "svc-alb-sg-beta"
        ecsSecurityGroupName := "svc-ecs-sg-beta" } }

/-- A resolved configuration whose generated load balancer name is 40
characters long. -/
def overlongAlbConfig : ResolvedApplicationConfig :=
  { toApplicationConfig := validBase
    resolvedStage := "beta"
    resourceNames :=
      { ecrRepositoryName := "svc-beta", clusterName := "svc-cluster-beta"
        serviceName := "svc-service-beta", taskDefinitionFamily := "svc-task-beta"
        albName := ⟨List.replicate 40 'a'⟩, targetGroupName := "svc-tg-beta"
        logGroupName := "/aws/ecs/svc-beta"
        albSecurityGroupName := "svc-alb-sg-beta"
        ecsSecurityGroupName := "svc-ecs-sg-beta" } }

/-! ### Support predicates for the normalizer proofs -/

/-- Every character of the list is in the ECR-allowed class. -/
def AllAllowed (l : List Char) : Prop :=
  ∀ c ∈ l, isEcrAllowed c = true

/-- The first character, when present, is not a special character. -/
def HeadNotSpec (l : List Char) : Prop :=
  ∀ c, l.head? = some c → isSpecChar c = false

/-- The last character, when present, is not a special character. -/
def LastNotSpec (l : List Char) : Prop :=
  ∀ c, l.getLast? = some c → isSpecChar c = false

/-- No two adjacent characters are both special. -/
def NoSpecPair (l : List Char) : Prop :=
  List.Chain' (fun a b => isSpecChar a = false ∨ isSpecChar b = false) l

/-! ## Theorems -/

/-- C5: a candidate base name longer than its resource class's maximum
length makes `generateUniqueName` fail immediately with the
name-too-long error, for every generator configuration (hence every
collision strategy) and every existing-names set — no suffix strategy is
attempted. -/
theorem generateUniqueName_too_long_fails (cfg : ResourceNameGeneratorConfig)
    (existing : List String) (baseName : String) (rt : ResourceType)
    (h : lengthLimit rt < baseName.length) :
    ResourceNameGenerator.generateUniqueName cfg existing baseName rt =
      .error (.nameTooLong baseName rt) := by
  simp [ResourceNameGenerator.generateUniqueName, h]

/-- Witness for C5: a 50-character load balancer name against the
32-character limit fails with the name-too-long error. -/
theorem generateUniqueName_too_long_witness :
    lengthLimit .albName < (String.mk (List.replicate 50 'a')).length ∧
    ResourceNameGenerator.generateUniqueName DEFAULT_GENERATOR_CONFIG []
      (String.mk (List.replicate 50 'a')) .albName =
      .error (.nameTooLong (String.mk (List.replicate 50 'a')) .albName) :=
  ⟨by decide,
   generateUniqueName_too_long_fails DEFAULT_GENERATOR_CONFIG []
     (String.mk (List.replicate 50 'a')) .albName (by decide)⟩

/-- C9 counterexample: the Configuration Resolver's inline naming
applier has no empty-stage guard — with the default convention and an
empty stage it appends the separator, returning `svc-` instead of the
unchanged base name `svc`. -/
theorem applyNamingRes_empty_stage_counterexample :
    applyNamingRes ""
      { useStagePrefixFlag := false, useStageSuffixFlag := true, separator := "-" }
      "svc" = "svc-" ∧
    ("svc-" : String) ≠ "svc" := by
  decide

/-- C9 as amended: the Resource Name Generator's naming applier returns
the base name unchanged for the empty stage, for every base name and
every convention. -/
theorem applyNamingGen_empty_stage_id (conv : NamingConvention) (base : String) :
    applyNamingGen "" conv base = base := by
  simp [applyNamingGen]

/-- C7 counterexample: `generateShortHash` is not always six characters
long — the empty string hashes to `0`, a one-character digest. -/
theorem generateShortHash_not_six_chars :
    generateShortHash "" = "0" ∧ (generateShortHash "").length ≠ 6 := by
  decide

/-- C7 as amended: `generateShortHash` is deterministic (equal inputs
give equal digests) and its result has at most six base-36 digit
characters. -/
theorem generateShortHash_deterministic_and_short (s t : String) (h : s = t) :
    generateShortHash s = generateShortHash t ∧ (generateShortHash s).length ≤ 6 := by
  subst h
  refine ⟨rfl, ?_⟩
  show (String.mk ((toBase36 (hashValue s.data).natAbs).take 6)).length ≤ 6
  have : (String.mk ((toBase36 (hashValue s.data).natAbs).take 6)).length =
      ((toBase36 (hashValue s.data).natAbs).take 6).length := rfl
  rw [this, List.length_take]
  exact min_le_left _ _

/-- Witness for C7: the digest of a concrete string equals itself and is
at most six characters. -/
theorem generateShortHash_witness :
    ("svc-alb" : String) = "svc-alb" ∧
    (generateShortHash "svc-alb" = generateShortHash "svc-alb" ∧
      (generateShortHash "svc-alb").length ≤ 6) :=
  ⟨rfl, generateShortHash_deterministic_and_short "svc-alb" "svc-alb" rfl⟩

/-- C4 counterexample: `validateConfiguration` does not length-check
every member of the resource name set — a configuration whose generated
cluster name is 300 characters (over the 255-character cluster limit)
is still reported valid, because only the five fields of
`lengthCheckedEntries` are examined. -/
theorem validateConfiguration_misses_cluster_length :
    255 < overlongClusterConfig.resourceNames.clusterName.length ∧
    (ConfigurationResolver.validateConfiguration overlongClusterConfig).isValid = true ∧
    (ConfigurationResolver.validateConfiguration overlongClusterConfig).errors = [] := by
  decide

/-- C4 as amended: `validateConfiguration` length-checks exactly the
five entries of `lengthCheckedEntries` (registry 256, service 255,
task-family 255, load-balancer 32, target-group 32) and reports an error
for each nonempty checked member exceeding its limit, making the
configuration invalid. -/
theorem validateConfiguration_checked_length_error (c : ResolvedApplicationConfig)
    (field value : String) (limit : Nat)
    (hmem : (field, value, limit) ∈ lengthCheckedEntries c.resourceNames)
    (hne : value ≠ "") (hlen : limit < value.length) :
    CfgIssue.generatedNameTooLong field value limit ∈
      (ConfigurationResolver.validateConfiguration c).errors ∧
    (ConfigurationResolver.validateConfiguration c).isValid = false := by
  have hmem' : CfgIssue.generatedNameTooLong field value limit ∈
      validateAwsNamingConventions c := by
    unfold validateAwsNamingConventions
    refine List.mem_append_right _ ?_
    refine List.mem_map.mpr ⟨(field, value, limit), ?_, rfl⟩
    refine List.mem_filter.mpr ⟨hmem, ?_⟩
    simp [hne, hlen]
  have hE : (ConfigurationResolver.validateConfiguration c).errors =
      validateRequiredFields c ++ validateAwsNamingConventions c ++
        validatePortConfiguration c ++ validatePathErrors c := rfl
  have hI : (ConfigurationResolver.validateConfiguration c).isValid =
      (validateRequiredFields c ++ validateAwsNamingConventions c ++
        validatePortConfiguration c ++ validatePathErrors c).isEmpty := rfl
  have herr : CfgIssue.generatedNameTooLong field value limit ∈
      (ConfigurationResolver.validateConfiguration c).errors := by
    rw [hE]
    exact List.mem_append_left _ (List.mem_append_left _
      (List.mem_append_right _ hmem'))
  refine ⟨herr, ?_⟩
  rw [hI]
  rw [hE] at herr
  simpa using List.ne_nil_of_mem herr

/-- Witness for C4's amended theorem: an over-long generated load
balancer name is reported as a length error and invalidates the
configuration. -/
theorem validateConfiguration_checked_length_witness :
    (("albName", (String.mk (List.replicate 40 'a')), 32) ∈
        lengthCheckedEntries overlongAlbConfig.resourceNames ∧
      (String.mk (List.replicate 40 'a')) ≠ "" ∧
      32 < (String.mk (List.replicate 40 'a')).length) ∧
    (CfgIssue.generatedNameTooLong "albName" (String.mk (List.replicate 40 'a')) 32 ∈
        (ConfigurationResolver.validateConfiguration overlongAlbConfig).errors ∧
      (ConfigurationResolver.validateConfiguration overlongAlbConfig).isValid = false) :=
  ⟨⟨by decide, by decide, by decide⟩,
   validateConfiguration_checked_length_error overlongAlbConfig "albName"
     (String.mk (List.replicate 40 'a')) 32 (by decide) (by decide) (by decide)⟩

/-- C1 counterexample: the empty string is a stage with no entry in the
override table, yet `resolveConfiguration` rejects it up front (no
warning, no fallback to the base configuration), even though the same
base configuration resolves successfully for stage `beta`. -/
theorem resolve_unknown_stage_counterexample :
    ConfigurationResolver.lookupEnvConfig [] "" = none ∧
    (ConfigurationResolver.resolveConfiguration validBase [] "").result =
      .error .emptyStage ∧
    (ConfigurationResolver.resolveConfiguration validBase [] "").warnedUnknownStage = false ∧
    resolveOk (ConfigurationResolver.resolveConfiguration validBase [] "beta").result = true := by
  refine ⟨rfl, by decide, by decide, by decide⟩

/-- C1 as amended: for every nonempty stage with no override entry,
`resolveConfiguration` emits the unknown-stage warning and proceeds with
the unmodified base configuration; whenever the resulting resolved
configuration passes validation, the call succeeds and returns the base
configuration resolved for that stage. -/
theorem resolve_unknown_stage_graceful (d : ApplicationConfig)
    (envConfigs : List EnvironmentConfig) (stage : String)
    (hne : stage ≠ "")
    (hnone : ConfigurationResolver.lookupEnvConfig envConfigs stage = none)
    (hval : (ConfigurationResolver.validateConfiguration
      { toApplicationConfig := d, resolvedStage := stage,
        resourceNames := ConfigurationResolver.generateResourceNames d stage none }).isValid
      = true) :
    (ConfigurationResolver.resolveConfiguration d envConfigs stage).warnedUnknownStage = true ∧
    (ConfigurationResolver.resolveConfiguration d envConfigs stage).result =
      .ok { toApplicationConfig := d, resolvedStage := stage,
            resourceNames := ConfigurationResolver.generateResourceNames d stage none } := by
  have hb : (stage == "") = false := beq_eq_false_iff_ne.mpr hne
  unfold ConfigurationResolver.resolveConfiguration
  rw [hb, hnone]
  simp [hval]

/-- Witness for C1's amended theorem: stage `beta` with an empty
override table warns and succeeds on `validBase`. -/
theorem resolve_unknown_stage_witness :
    (("beta" : String) ≠ "" ∧
      ConfigurationResolver.lookupEnvConfig [] "beta" = none ∧
      (ConfigurationResolver.validateConfiguration
        { toApplicationConfig := validBase, resolvedStage := "beta",
          resourceNames :=
            ConfigurationResolver.generateResourceNames validBase "beta" none }).isValid
        = true) ∧
    (ConfigurationResolver.resolveConfiguration validBase [] "beta").warnedUnknownStage = true :=
  ⟨⟨by decide, rfl, by decide⟩,
   (resolve_unknown_stage_graceful validBase [] "beta" (by decide) rfl (by decide)).1⟩

/-- C2 counterexample: a valid base configuration (it resolves cleanly
for stage `beta`) together with a 30-character stage that has no
override entry makes `resolveConfiguration` throw — the generated load
balancer and target group names exceed their 32-character limits — so
the call does not return the base configuration resolved for that
stage. -/
theorem resolve_no_override_counterexample :
    ConfigurationResolver.lookupEnvConfig [] longStage = none ∧
    resolveOk (ConfigurationResolver.resolveConfiguration validBase [] "beta").result = true ∧
    (ConfigurationResolver.resolveConfiguration validBase [] longStage).result =
      .error (.validationFailed longStage
        [CfgIssue.generatedNameTooLong "albName" ("svc-alb-" ++ longStage) 32,
         CfgIssue.generatedNameTooLong "targetGroupName" ("svc-tg-" ++ longStage) 32]) := by
  refine ⟨rfl, by decide, by decide⟩

/-- C2 as amended: for every base configuration and every nonempty
stage with no override entry whose resolved configuration passes
validation, `resolveConfiguration` returns the base configuration
unchanged except for `resolvedStage` and `resourceNames`, and under the
default convention every generated name is the corresponding base
identifier with `-` and the stage appended. -/
theorem resolve_no_override_default_names (d : ApplicationConfig)
    (envConfigs : List EnvironmentConfig) (stage : String)
    (hne : stage ≠ "")
    (hnone : ConfigurationResolver.lookupEnvConfig envConfigs stage = none)
    (hval : (ConfigurationResolver.validateConfiguration
      { toApplicationConfig := d, resolvedStage := stage,
        resourceNames := ConfigurationResolver.generateResourceNames d stage none }).isValid
      = true) :
    (ConfigurationResolver.resolveConfiguration d envConfigs stage).result =
      .ok { toApplicationConfig := d, resolvedStage := stage,
            resourceNames :=
              { ecrRepositoryName := d.ecrRepositoryName ++ "-" ++ stage
                clusterName := (d.applicationName ++ "-" ++ d.clusterNameSuffix) ++ "-" ++ stage
                serviceName := d.serviceName ++ "-" ++ stage
                taskDefinitionFamily := d.taskDefinitionFamily ++ "-" ++ stage
                albName := d.albName ++ "-" ++ stage
                targetGroupName := d.targetGroupName ++ "-" ++ stage
                logGroupName := "/aws/ecs/" ++ d.applicationName ++ "-" ++ stage
                albSecurityGroupName := (d.applicationName ++ "-alb-sg") ++ "-" ++ stage
                ecsSecurityGroupName := (d.applicationName ++ "-ecs-sg") ++ "-" ++ stage } } := by
  have hgen : ConfigurationResolver.generateResourceNames d stage none =
      { ecrRepositoryName := d.ecrRepositoryName ++ "-" ++ stage
        clusterName := (d.applicationName ++ "-" ++ d.clusterNameSuffix) ++ "-" ++ stage
        serviceName := d.serviceName ++ "-" ++ stage
        taskDefinitionFamily := d.taskDefinitionFamily ++ "-" ++ stage
        albName := d.albName ++ "-" ++ stage
        targetGroupName := d.targetGroupName ++ "-" ++ stage
        logGroupName := "/aws/ecs/" ++ d.applicationName ++ "-" ++ stage
        albSecurityGroupName := (d.applicationName ++ "-alb-sg") ++ "-" ++ stage
        ecsSecurityGroupName := (d.applicationName ++ "-ecs-sg") ++ "-" ++ stage } := by
    simp [ConfigurationResolver.generateResourceNames, applyNamingRes,
      String.append_assoc]
  rw [← hgen]
  exact (resolve_unknown_stage_graceful d envConfigs stage hne hnone hval).2

/-- Witness for C2's amended theorem: `validBase` at stage `beta`
resolves to `svc-service-beta`, `svc-cluster-beta` and
`/aws/ecs/svc-beta` as the claim's scenario requires. -/
theorem resolve_no_override_witness :
    (ConfigurationResolver.resolveConfiguration validBase [] "beta").result =
      .ok svcResolvedW ∧
    svcResolvedW.resourceNames.serviceName = "svc-service-beta" ∧
    svcResolvedW.resourceNames.clusterName = "svc-cluster-beta" ∧
    svcResolvedW.resourceNames.logGroupName = "/aws/ecs/svc-beta" :=
  ⟨(resolve_no_override_default_names validBase [] "beta" (by decide) rfl
      (by decide)).trans (by decide),
   by decide, by decide, by decide⟩

/-- Unfolding of `lookupArg` on a cons cell. -/
theorem lookupArg_cons (x : String × String) (t : List (String × String)) (k : String) :
    lookupArg (x :: t) k = if (x.1 == k) = true then some x.2 else lookupArg t k := by
  by_cases hk : (x.1 == k) = true
  · simp [lookupArg, List.find?, hk]
  · simp [lookupArg, List.find?, hk]

/-- An `overrideEntry` keeps the key of its base entry. -/
theorem overrideEntry_fst (ovr : List (String × String)) (p : String × String) :
    (overrideEntry ovr p).1 = p.1 := by
  unfold overrideEntry
  cases lookupArg ovr p.1 <;> rfl

/-- Lookup distributes over append when the first list has no match. -/
theorem lookupArg_append_of_none {l1 l2 : List (String × String)} {k : String}
    (h : lookupArg l1 k = none) : lookupArg (l1 ++ l2) k = lookupArg l2 k := by
  induction l1 with
  | nil => rfl
  | cons a t ih =>
    rw [lookupArg_cons] at h
    rw [List.cons_append, lookupArg_cons]
    by_cases hk : (a.1 == k) = true
    · simp [hk] at h
    · rw [if_neg hk] at h ⊢
      exact ih h

/-- Lookup ignores the second list when the first has a match. -/
theorem lookupArg_append_of_some {l1 l2 : List (String × String)} {k : String} {v : String}
    (h : lookupArg l1 k = some v) : lookupArg (l1 ++ l2) k = some v := by
  induction l1 with
  | nil => simp [lookupArg] at h
  | cons a t ih =>
    rw [lookupArg_cons] at h
    rw [List.cons_append, lookupArg_cons]
    by_cases hk : (a.1 == k) = true
    · rwa [if_pos hk] at h ⊢
    · rw [if_neg hk] at h ⊢
      exact ih h

/-- The key-preserving map of `spreadMerge` has no match for keys the
base mapping lacks. -/
theorem lookupArg_overrideMap_of_none (base ovr : List (String × String)) (k : String)
    (h : lookupArg base k = none) :
    lookupArg (base.map (overrideEntry ovr)) k = none := by
  induction base with
  | nil => rfl
  | cons a t ih =>
    rw [lookupArg_cons] at h
    rw [List.map_cons, lookupArg_cons, overrideEntry_fst]
    by_cases hk : (a.1 == k) = true
    · simp [hk] at h
    · rw [if_neg hk] at h ⊢
      exact ih h

/-- The key-preserving map of `spreadMerge` rewrites the first matching
value by the override lookup. -/
theorem lookupArg_overrideMap_of_some (base ovr : List (String × String)) (k : String)
    (bv : String) (h : lookupArg base k = some bv) :
    lookupArg (base.map (overrideEntry ovr)) k =
      some (match lookupArg ovr k with
        | some v => v
        | none => bv) := by
  induction base with
  | nil => simp [lookupArg] at h
  | cons a t ih =>
    rw [lookupArg_cons] at h
    rw [List.map_cons, lookupArg_cons, overrideEntry_fst]
    by_cases hk : (a.1 == k) = true
    · rw [if_pos hk] at h ⊢
      have hak : a.1 = k := eq_of_beq hk
      have hv : a.2 = bv := by simpa using h
      unfold overrideEntry
      rw [hak]
      cases lookupArg ovr k with
      | some v => rfl
      | none => exact congrArg some hv
    · rw [if_neg hk] at h ⊢
      exact ih h

/-- Filtering by a predicate that holds on every pair with the looked-up
key does not change the lookup. -/
theorem lookupArg_filter_of_key (ovr : List (String × String)) (q : String × String → Bool)
    (k : String) (hq : ∀ p : String × String, (p.1 == k) = true → q p = true) :
    lookupArg (ovr.filter q) k = lookupArg ovr k := by
  induction ovr with
  | nil => rfl
  | cons a t ih =>
    by_cases hk : (a.1 == k) = true
    · rw [List.filter_cons_of_pos (hq a hk), lookupArg_cons, lookupArg_cons, if_pos hk,
        if_pos hk]
    · cases hqa : q a with
      | true =>
        rw [List.filter_cons_of_pos hqa, lookupArg_cons, lookupArg_cons, if_neg hk,
          if_neg hk]
        exact ih
      | false =>
        rw [List.filter_cons_of_neg (by simp [hqa]), lookupArg_cons, if_neg hk]
        exact ih

/-- Lookup in a JavaScript object spread: the override value wins on
every key the override has; every other key keeps its base value. -/
theorem lookupArg_spreadMerge (base ovr : List (String × String)) (k : String) :
    lookupArg (spreadMerge base ovr) k =
      match lookupArg ovr k with
      | some v => some v
      | none => lookupArg base k := by
  cases hb : lookupArg base k with
  | none =>
    unfold spreadMerge
    rw [lookupArg_append_of_none (lookupArg_overrideMap_of_none base ovr k hb)]
    rw [lookupArg_filter_of_key]
    · cases ho : lookupArg ovr k <;> simp [ho, hb]
    · intro p hp
      have hpk : p.1 = k := eq_of_beq hp
      simp [hpk, hb]
  | some bv =>
    unfold spreadMerge
    rw [lookupArg_append_of_some (lookupArg_overrideMap_of_some base ovr k bv hb)]
    cases lookupArg ovr k <;> rfl

/-- C8: when the stage's override record provides
`buildOverrides.dockerBuildArgs`, the resolved configuration's docker
build arguments are the key-by-key spread merge — on every key the
override value wins, and every key the override does not mention keeps
its value from the (application-override-merged) base mapping. -/
theorem resolve_build_args_merge (d : ApplicationConfig)
    (envConfigs : List EnvironmentConfig) (stage : String)
    (ec : EnvironmentConfig) (bo : BuildOverrides) (ovArgs : List (String × String))
    (r : ResolvedApplicationConfig)
    (hlookup : ConfigurationResolver.lookupEnvConfig envConfigs stage = some ec)
    (hbo : ec.buildOverrides = some bo)
    (hargs : bo.dockerBuildArgs = some ovArgs)
    (hres : (ConfigurationResolver.resolveConfiguration d envConfigs stage).result = .ok r) :
    ∀ k : String,
      lookupArg r.dockerBuildArgs k =
        match lookupArg ovArgs k with
        | some v => some v
        | none =>
          lookupArg
            (match ec.applicationOverrides with
             | some ao => ao.dockerBuildArgs.getD d.dockerBuildArgs
             | none => d.dockerBuildArgs) k := by
  intro k
  by_cases hs : (stage == "") = true
  · unfold ConfigurationResolver.resolveConfiguration at hres
    rw [if_pos hs] at hres
    exact absurd hres (by simp)
  · unfold ConfigurationResolver.resolveConfiguration at hres
    rw [if_neg hs, hlookup] at hres
    simp only [hbo] at hres
    have hargs' : r.dockerBuildArgs =
        spreadMerge
          (match ec.applicationOverrides with
           | some ao => ao.dockerBuildArgs.getD d.dockerBuildArgs
           | none => d.dockerBuildArgs) ovArgs := by
      cases hao : ec.applicationOverrides with
      | none =>
        simp only [hao] at hres
        unfold applyBuildOverrides at hres
        simp only [hargs] at hres
        split at hres
        · cases hres
          cases hbc : bo.buildCommands <;> simp [hbc]
        · exact absurd hres (by simp)
      | some ao =>
        simp only [hao] at hres
        unfold applyBuildOverrides at hres
        simp only [hargs] at hres
        split at hres
        · cases hres
          cases hbc : bo.buildCommands <;>
            simp [hbc, applyApplicationOverrides]
        · exact absurd hres (by simp)
    rw [hargs', lookupArg_spreadMerge]

/-- Witness for C8: base `\x7bB: 2\x7d` with a `prod` override
`\x7bA: 1\x7d` resolves to a mapping sending `A` to `1` and `B` to `2`. -/
theorem resolve_build_args_merge_witness :
    (ConfigurationResolver.resolveConfiguration validBase [prodEnv] "prod").result =
      .ok prodResolvedW ∧
    lookupArg prodResolvedW.dockerBuildArgs "A" = some "1" ∧
    lookupArg prodResolvedW.dockerBuildArgs "B" = some "2" := by
  have hres : (ConfigurationResolver.resolveConfiguration validBase [prodEnv] "prod").result =
      .ok prodResolvedW := by decide
  refine ⟨hres, ?_, ?_⟩
  · exact (resolve_build_args_merge validBase [prodEnv] "prod" prodEnv
      { dockerBuildArgs := some [("A", "1")] } [("A", "1")] prodResolvedW
      rfl rfl rfl hres "A").trans (by decide)
  · exact (resolve_build_args_merge validBase [prodEnv] "prod" prodEnv
      { dockerBuildArgs := some [("A", "1")] } [("A", "1")] prodResolvedW
      rfl rfl rfl hres "B").trans (by decide)

/-- JavaScript duplicate detection: an empty later-duplicates list means
the values are pairwise distinct. -/
theorem laterDuplicates_nil_nodup {l : List String} (h : laterDuplicates l = []) :
    l.Nodup := by
  have hfilter : ∀ p ∈ l.enum, ¬((l.indexOf p.2 != p.1) = true) := by
    refine List.filter_eq_nil_iff.mp ?_
    exact List.map_eq_nil_iff.mp h
  have hidx : ∀ i : Fin l.length, l.indexOf (l.get i) = i.1 := by
    intro i
    have hlen : (i : Nat) < l.enum.length := by
      rw [List.enum_length]
      exact i.2
    have hm : ((i : Nat), l.get i) ∈ l.enum := by
      have hg := List.getElem_enum l i.1 hlen
      have := List.getElem_mem hlen
      rw [hg] at this
      simpa [List.get_eq_getElem] using this
    have := hfilter _ hm
    simpa using this
  rw [List.nodup_iff_injective_get]
  intro i j hij
  have h1 := hidx i
  have h2 := hidx j
  rw [hij] at h1
  exact Fin.ext (h1.symm.trans h2)

/-- Unpacking of `isValidResourceName`: a valid name is within its
class's length limit and matches its class's pattern. -/
theorem isValidResourceName_spec {n : String} {rt : ResourceType}
    (h : isValidResourceName n rt = true) :
    n.length ≤ lengthLimit rt ∧ patternFor rt n = true := by
  by_cases h1 : (n == "") = true
  · simp [isValidResourceName, h1] at h
  · by_cases h2 : lengthLimit rt < n.length
    · simp [isValidResourceName, h1, h2] at h
    · refine ⟨Nat.le_of_not_lt h2, ?_⟩
      simpa [isValidResourceName, h1, h2] using h

/-- A name set accepted by the generator's validation has pairwise
distinct values and only names valid for their class. -/
theorem validateResourceNames_ok (cfg : ResourceNameGeneratorConfig) (rn : ResourceNames)
    (h : (ResourceNameGenerator.validateResourceNames cfg rn).isValid = true) :
    rn.valuesList.Nodup ∧
      ∀ e ∈ rn.entriesList, isValidResourceName e.2.2 e.2.1 = true := by
  have hE : (ResourceNameGenerator.validateResourceNames cfg rn).isValid =
      (((rn.entriesList.filter fun e => !isValidResourceName e.2.2 e.2.1).map
          fun e => NameIssue.invalidName e.1 e.2.2) ++
        (if (laterDuplicates rn.valuesList).isEmpty then []
         else [NameIssue.duplicateNames (laterDuplicates rn.valuesList)])).isEmpty := rfl
  rw [hE] at h
  rw [List.isEmpty_iff, List.append_eq_nil] at h
  obtain ⟨h1, h2⟩ := h
  constructor
  · apply laterDuplicates_nil_nodup
    by_cases hd : (laterDuplicates rn.valuesList).isEmpty = true
    · exact List.isEmpty_iff.mp hd
    · rw [if_neg hd] at h2
      simp at h2
  · intro e he
    have hfe : (rn.entriesList.filter fun e => !isValidResourceName e.2.2 e.2.1) = [] :=
      List.map_eq_nil_iff.mp h1
    have := List.filter_eq_nil_iff.mp hfe e he
    simpa using this

/-- A successful `finishGeneration` passed the defensive validation. -/
theorem finishGeneration_ok {cfg : ResourceNameGeneratorConfig} {ex : List String}
    {r : Except GenErr ResourceNames} {rn : ResourceNames}
    (h : (finishGeneration cfg ex r).1 = .ok rn) :
    (ResourceNameGenerator.validateResourceNames cfg rn).isValid = true := by
  cases r with
  | error e => exact absurd h (by simp [finishGeneration])
  | ok rn' =>
    have hfg : finishGeneration cfg ex (.ok rn') =
        if (ResourceNameGenerator.validateResourceNames cfg rn').isValid
        then (.ok rn', addNames ex rn'.valuesList)
        else (.error (.invalidGeneratedName
          (ResourceNameGenerator.validateResourceNames cfg rn').errors), ex) := rfl
    rw [hfg] at h
    by_cases hv : (ResourceNameGenerator.validateResourceNames cfg rn').isValid = true
    · rw [if_pos hv] at h
      cases h
      exact hv
    · rw [if_neg hv] at h
      exact absurd h (by simp)

/-- When `finishGeneration` fails on the defensive validation, the
existing-names set is returned untouched. -/
theorem finishGeneration_state {cfg : ResourceNameGeneratorConfig} {ex : List String}
    {r : Except GenErr ResourceNames} {es : List NameIssue}
    (h : (finishGeneration cfg ex r).1 = .error (.invalidGeneratedName es)) :
    (finishGeneration cfg ex r).2 = ex := by
  cases r with
  | error e => rfl
  | ok rn' =>
    have hfg : finishGeneration cfg ex (.ok rn') =
        if (ResourceNameGenerator.validateResourceNames cfg rn').isValid
        then (.ok rn', addNames ex rn'.valuesList)
        else (.error (.invalidGeneratedName
          (ResourceNameGenerator.validateResourceNames cfg rn').errors), ex) := rfl
    rw [hfg] at h ⊢
    by_cases hv : (ResourceNameGenerator.validateResourceNames cfg rn').isValid = true
    · rw [if_pos hv] at h
      exact absurd h (by simp)
    · rw [if_neg hv]

/-- C3: every resource name set returned by
`ResourceNameGenerator.generateResourceNames` without throwing satisfies
the set invariant — the nine members are pairwise distinct, and each
member is within its resource class's length limit and matches its
class's naming pattern. -/
theorem generated_name_set_invariant (cfg : ResourceNameGeneratorConfig)
    (existing : List String) (ctx : NameGenContext) (rn : ResourceNames)
    (h : (ResourceNameGenerator.generateResourceNames cfg existing ctx).1 = .ok rn) :
    rn.valuesList.Nodup ∧
      ∀ e ∈ rn.entriesList,
        e.2.2.length ≤ lengthLimit e.2.1 ∧ patternFor e.2.1 e.2.2 = true := by
  have hv : (ResourceNameGenerator.validateResourceNames cfg rn).isValid = true :=
    finishGeneration_ok h
  obtain ⟨hnd, hall⟩ := validateResourceNames_ok cfg rn hv
  exact ⟨hnd, fun e he => isValidResourceName_spec (hall e he)⟩

/-- Witness for C3: a successful generation whose returned set is
pairwise distinct. -/
theorem generated_name_set_invariant_witness :
    (ResourceNameGenerator.generateResourceNames DEFAULT_GENERATOR_CONFIG [] genCtxW).1 =
      .ok svcResolvedW.resourceNames ∧
    svcResolvedW.resourceNames.valuesList.Nodup :=
  ⟨by decide,
   (generated_name_set_invariant DEFAULT_GENERATOR_CONFIG [] genCtxW
     svcResolvedW.resourceNames (by decide)).1⟩

/-- C10: when `generateResourceNames` throws because the defensive
validation of the freshly generated set fails, none of the generated
names has been added to the generator's existing-names set — the set
after the call is exactly the initial set with `context.existingNames`
merged in. -/
theorem generation_failure_preserves_existing (cfg : ResourceNameGeneratorConfig)
    (existing : List String) (ctx : NameGenContext) (es : List NameIssue)
    (h : (ResourceNameGenerator.generateResourceNames cfg existing ctx).1 =
      .error (.invalidGeneratedName es)) :
    (ResourceNameGenerator.generateResourceNames cfg existing ctx).2 =
      mergeContextNames existing ctx :=
  finishGeneration_state h

/-- Witness for C10: a duplicate-producing configuration throws the
validation error and leaves only the merged context name in the set. -/
theorem generation_failure_preserves_existing_witness :
    (ResourceNameGenerator.generateResourceNames DEFAULT_GENERATOR_CONFIG [] dupCtx).1 =
      .error (.invalidGeneratedName [.duplicateNames ["svc-beta"]]) ∧
    (ResourceNameGenerator.generateResourceNames DEFAULT_GENERATOR_CONFIG [] dupCtx).2 =
      ["w"] := by
  refine ⟨by decide, ?_⟩
  have hstate := generation_failure_preserves_existing DEFAULT_GENERATOR_CONFIG [] dupCtx
    [.duplicateNames ["svc-beta"]] (by decide)
  rw [hstate]
  decide

/-- An ECR-allowed character is unchanged by `Char.toLower`: the allowed
class contains no uppercase basic-latin letter. -/
theorem toLower_fixed_of_allowed {c : Char} (h : isEcrAllowed c = true) :
    Char.toLower c = c := by
  unfold Char.toLower
  have hcond : ¬(Char.toNat c ≥ 65 ∧ Char.toNat c ≤ 90) := by
    rintro ⟨h65, h90⟩
    unfold isEcrAllowed isLowerNum at h
    simp only [Bool.or_eq_true, Bool.and_eq_true, decide_eq_true_eq, beq_iff_eq] at h
    rcases h with ((((⟨h1, h2⟩ | ⟨h1, h2⟩) | h3) | h3) | h3) | h3
    · omega
    · omega
    · subst h3; revert h65 h90; decide
    · subst h3; revert h65 h90; decide
    · subst h3; revert h65 h90; decide
    · subst h3; revert h65 h90; decide
  rw [if_neg hcond]

/-- An ECR-allowed character is unchanged by `replaceInvalidChar`. -/
theorem replace_fixed_of_allowed {c : Char} (h : isEcrAllowed c = true) :
    replaceInvalidChar c = c := by
  simp [replaceInvalidChar, h]

/-- The replacement step only produces ECR-allowed characters. -/
theorem isEcrAllowed_replaceInvalidChar (c : Char) :
    isEcrAllowed (replaceInvalidChar c) = true := by
  by_cases h : isEcrAllowed c = true
  · rwa [replace_fixed_of_allowed h]
  · unfold replaceInvalidChar
    rw [if_neg h]
    decide

/-- A map that fixes every member of a list is the identity on it. -/
theorem map_id_of_mem {f : Char → Char} {l : List Char} (h : ∀ c ∈ l, f c = c) :
    l.map f = l := by
  induction l with
  | nil => rfl
  | cons a t ih =>
    rw [List.map_cons, h a (List.mem_cons_self a t),
      ih fun c hc => h c (List.mem_cons_of_mem a hc)]

/-- Stripping the ends keeps only characters of the original list. -/
theorem mem_stripSpecEnds {c : Char} {l : List Char} (h : c ∈ stripSpecEnds l) :
    c ∈ l := by
  unfold stripSpecEnds at h
  rw [List.mem_reverse] at h
  have h2 := (List.dropWhile_suffix isSpecChar).subset h
  rw [List.mem_reverse] at h2
  exact (List.dropWhile_suffix isSpecChar).subset h2

/-- The head of a `dropWhile` result falsifies the predicate. -/
theorem head?_dropWhile_not {p : Char → Bool} :
    ∀ (l : List Char) (c : Char), (l.dropWhile p).head? = some c → p c = false := by
  intro l
  induction l with
  | nil => intro c hc; cases hc
  | cons a t ih =>
    intro c hc
    by_cases hp : p a = true
    · rw [List.dropWhile_cons, if_pos hp] at hc
      exact ih c hc
    · rw [List.dropWhile_cons, if_neg hp] at hc
      have : a = c := by simpa using hc
      subst this
      exact Bool.eq_false_iff.mpr hp

/-- A `dropWhile` result is unchanged when the head already falsifies
the predicate. -/
theorem dropWhile_eq_self_of_head {p : Char → Bool} {l : List Char}
    (h : ∀ c, l.head? = some c → p c = false) : l.dropWhile p = l := by
  cases l with
  | nil => rfl
  | cons a t =>
    rw [List.dropWhile_cons, if_neg]
    simp [h a rfl]

/-- The last entry of a cons is the last entry of its nonempty tail. -/
theorem getLast?_cons_ne_nil {a : Char} {l : List Char} (h : l ≠ []) :
    (a :: l).getLast? = l.getLast? := by
  cases l with
  | nil => exact absurd rfl h
  | cons b t => exact List.getLast?_cons_cons

/-- A nonempty suffix has the same last entry as the whole list. -/
theorem getLast?_of_suffix {l1 l2 : List Char} (h : l1 <:+ l2) (hne : l1 ≠ []) :
    l1.getLast? = l2.getLast? := by
  obtain ⟨t, rfl⟩ := h
  induction t with
  | nil => rfl
  | cons a t ih =>
    rw [List.cons_append, getLast?_cons_ne_nil]
    · exact ih
    · intro hx
      rw [List.append_eq_nil] at hx
      exact hne hx.2

/-- Unfolding equations of `collapseGo` on a cons cell, by pending
state. -/
theorem collapseGo_noRun_cons_spec {a : Char} {t : List Char} (h : isSpecChar a = true) :
    collapseGo .noRun (a :: t) = collapseGo (.oneSpec a) t := by
  simp [collapseGo, h]

theorem collapseGo_noRun_cons_ord {a : Char} {t : List Char} (h : isSpecChar a = false) :
    collapseGo .noRun (a :: t) = a :: collapseGo .noRun t := by
  simp [collapseGo, h]

theorem collapseGo_oneSpec_cons_spec {p a : Char} {t : List Char} (h : isSpecChar a = true) :
    collapseGo (.oneSpec p) (a :: t) = collapseGo .manySpec t := by
  simp [collapseGo, h]

theorem collapseGo_oneSpec_cons_ord {p a : Char} {t : List Char} (h : isSpecChar a = false) :
    collapseGo (.oneSpec p) (a :: t) = p :: a :: collapseGo .noRun t := by
  simp [collapseGo, h]

theorem collapseGo_manySpec_cons_spec {a : Char} {t : List Char} (h : isSpecChar a = true) :
    collapseGo .manySpec (a :: t) = collapseGo .manySpec t := by
  simp [collapseGo, h]

theorem collapseGo_manySpec_cons_ord {a : Char} {t : List Char} (h : isSpecChar a = false) :
    collapseGo .manySpec (a :: t) = '-' :: a :: collapseGo .noRun t := by
  simp [collapseGo, h]

/-- Collapsing runs only emits ECR-allowed characters when the input and
the pending character are allowed (a hyphen is allowed). -/
theorem collapseGo_allowed : ∀ (l : List Char) (st : RunState),
    AllAllowed l →
    (∀ p, st = .oneSpec p → isEcrAllowed p = true) →
    AllAllowed (collapseGo st l) := by
  intro l
  induction l with
  | nil =>
    intro st hl hst c hc
    cases st with
    | noRun => cases hc
    | oneSpec p =>
      have : c = p := by simpa [collapseGo] using hc
      subst this
      exact hst _ rfl
    | manySpec =>
      have : c = '-' := by simpa [collapseGo] using hc
      subst this
      decide
  | cons a t ih =>
    intro st hl hst c hc
    have hat : AllAllowed t := fun c hc => hl c (List.mem_cons_of_mem a hc)
    have haa : isEcrAllowed a = true := hl a (List.mem_cons_self a t)
    by_cases hs : isSpecChar a = true
    · cases st with
      | noRun =>
        rw [collapseGo_noRun_cons_spec hs] at hc
        refine ih _ hat ?_ c hc
        intro p hp
        injection hp with hp1
        exact hp1 ▸ haa
      | oneSpec p =>
        rw [collapseGo_oneSpec_cons_spec hs] at hc
        exact ih _ hat (fun p hp => by cases hp) c hc
      | manySpec =>
        rw [collapseGo_manySpec_cons_spec hs] at hc
        exact ih _ hat (fun p hp => by cases hp) c hc
    · have hs' : isSpecChar a = false := Bool.eq_false_iff.mpr hs
      have hrest := ih RunState.noRun hat (fun p hp => by cases hp)
      cases st with
      | noRun =>
        rw [collapseGo_noRun_cons_ord hs'] at hc
        rcases List.mem_cons.mp hc with h | h
        · exact h ▸ haa
        · exact hrest c h
      | oneSpec p =>
        rw [collapseGo_oneSpec_cons_ord hs'] at hc
        rcases List.mem_cons.mp hc with h | h
        · exact h ▸ hst p rfl
        · rcases List.mem_cons.mp h with h2 | h2
          · exact h2 ▸ haa
          · exact hrest c h2
      | manySpec =>
        rw [collapseGo_manySpec_cons_ord hs'] at hc
        rcases List.mem_cons.mp hc with h | h
        · subst h; decide
        · rcases List.mem_cons.mp h with h2 | h2
          · exact h2 ▸ haa
          · exact hrest c h2

/-- Collapsing runs never leaves two adjacent special characters. -/
theorem collapseGo_chain : ∀ (l : List Char) (st : RunState),
    NoSpecPair (collapseGo st l) := by
  intro l
  induction l with
  | nil =>
    intro st
    cases st <;> simp [collapseGo, NoSpecPair]
  | cons a t ih =>
    intro st
    by_cases hs : isSpecChar a = true
    · cases st with
      | noRun => rw [collapseGo_noRun_cons_spec hs]; exact ih _
      | oneSpec p => rw [collapseGo_oneSpec_cons_spec hs]; exact ih _
      | manySpec => rw [collapseGo_manySpec_cons_spec hs]; exact ih _
    · have hs' : isSpecChar a = false := Bool.eq_false_iff.mpr hs
      have hX := ih RunState.noRun
      have hcons : NoSpecPair (a :: collapseGo .noRun t) := by
        refine List.chain'_cons'.mpr ⟨fun b _ => Or.inl hs', hX⟩
      cases st with
      | noRun => rw [collapseGo_noRun_cons_ord hs']; exact hcons
      | oneSpec p =>
        rw [collapseGo_oneSpec_cons_ord hs']
        exact List.chain'_cons'.mpr ⟨fun b hb => by
          have hba : a = b := by simpa using hb
          exact hba ▸ Or.inr hs', hcons⟩
      | manySpec =>
        rw [collapseGo_manySpec_cons_ord hs']
        exact List.chain'_cons'.mpr ⟨fun b hb => by
          have hba : a = b := by simpa using hb
          exact hba ▸ Or.inr hs', hcons⟩

/-- Collapsing runs preserves a non-special head. -/
theorem collapseGo_head {l : List Char} (h : HeadNotSpec l) :
    HeadNotSpec (collapseGo .noRun l) := by
  cases l with
  | nil => intro c hc; cases hc
  | cons a t =>
    have ha : isSpecChar a = false := h a rfl
    rw [collapseGo_noRun_cons_ord ha]
    intro c hc
    have : a = c := by simpa using hc
    exact this ▸ ha

/-- Collapsing a nonempty list, or any list with a pending run, yields a
nonempty result. -/
theorem collapseGo_ne_nil : ∀ (l : List Char) (st : RunState),
    (st = .noRun → l ≠ []) → collapseGo st l ≠ [] := by
  intro l
  induction l with
  | nil =>
    intro st h
    cases st with
    | noRun => exact absurd (h rfl) (by simp)
    | oneSpec p => simp [collapseGo]
    | manySpec => simp [collapseGo]
  | cons a t ih =>
    intro st h
    by_cases hs : isSpecChar a = true
    · cases st with
      | noRun => rw [collapseGo_noRun_cons_spec hs]; exact ih _ (fun hx => by cases hx)
      | oneSpec p => rw [collapseGo_oneSpec_cons_spec hs]; exact ih _ (fun hx => by cases hx)
      | manySpec => rw [collapseGo_manySpec_cons_spec hs]; exact ih _ (fun hx => by cases hx)
    · have hs' : isSpecChar a = false := Bool.eq_false_iff.mpr hs
      cases st with
      | noRun => rw [collapseGo_noRun_cons_ord hs']; simp
      | oneSpec p => rw [collapseGo_oneSpec_cons_ord hs']; simp
      | manySpec => rw [collapseGo_manySpec_cons_ord hs']; simp

/-- Collapsing runs preserves a non-special last character. -/
theorem collapseGo_last : ∀ (l : List Char), l ≠ [] → LastNotSpec l →
    ∀ st, LastNotSpec (collapseGo st l) := by
  intro l
  induction l with
  | nil => intro h; exact absurd rfl h
  | cons a t ih =>
    intro _ hlast st
    cases t with
    | nil =>
      have ha : isSpecChar a = false := hlast a rfl
      cases st with
      | noRun =>
        rw [collapseGo_noRun_cons_ord ha]
        intro c hc
        have : a = c := by simpa [collapseGo] using hc
        exact this ▸ ha
      | oneSpec p =>
        rw [collapseGo_oneSpec_cons_ord ha]
        intro c hc
        have : a = c := by
          rw [getLast?_cons_ne_nil (by simp)] at hc
          simpa [collapseGo] using hc
        exact this ▸ ha
      | manySpec =>
        rw [collapseGo_manySpec_cons_ord ha]
        intro c hc
        have : a = c := by
          rw [getLast?_cons_ne_nil (by simp)] at hc
          simpa [collapseGo] using hc
        exact this ▸ ha
    | cons b t2 =>
      have htne : (b :: t2) ≠ [] := by simp
      have hlast' : LastNotSpec (b :: t2) := by
        intro c hc
        exact hlast c ((getLast?_cons_ne_nil htne).symm ▸ hc)
      have hXlast : LastNotSpec (collapseGo .noRun (b :: t2)) :=
        ih htne hlast' RunState.noRun
      have hXne : collapseGo .noRun (b :: t2) ≠ [] :=
        collapseGo_ne_nil (b :: t2) RunState.noRun (fun _ => htne)
      have hconsLast : ∀ x : Char, LastNotSpec (x :: collapseGo .noRun (b :: t2)) := by
        intro x c hc
        rw [getLast?_cons_ne_nil hXne] at hc
        exact hXlast c hc
      have hcons2Last : ∀ x y : Char,
          LastNotSpec (x :: y :: collapseGo .noRun (b :: t2)) := by
        intro x y c hc
        rw [getLast?_cons_ne_nil (by simp)] at hc
        exact hconsLast y c hc
      by_cases hs : isSpecChar a = true
      · cases st with
        | noRun =>
          rw [collapseGo_noRun_cons_spec hs]
          exact ih htne hlast' _
        | oneSpec p =>
          rw [collapseGo_oneSpec_cons_spec hs]
          exact ih htne hlast' _
        | manySpec =>
          rw [collapseGo_manySpec_cons_spec hs]
          exact ih htne hlast' _
      · have hs' : isSpecChar a = false := Bool.eq_false_iff.mpr hs
        cases st with
        | noRun =>
          rw [collapseGo_noRun_cons_ord hs']
          exact hconsLast a
        | oneSpec p =>
          rw [collapseGo_oneSpec_cons_ord hs']
          exact hcons2Last p a
        | manySpec =>
          rw [collapseGo_manySpec_cons_ord hs']
          exact hcons2Last '-' a

/-- A list without adjacent special characters is a fixed point of run
collapsing (and collapsing after a pending special prepends it). -/
theorem collapseGo_fix : ∀ l : List Char,
    (NoSpecPair l → collapseGo .noRun l = l) ∧
    (HeadNotSpec l → NoSpecPair l → ∀ p, collapseGo (.oneSpec p) l = p :: l) := by
  intro l
  induction l with
  | nil => exact ⟨fun _ => rfl, fun _ _ p => rfl⟩
  | cons a t ih =>
    constructor
    · intro hch
      by_cases hs : isSpecChar a = true
      · rw [collapseGo_noRun_cons_spec hs]
        have hparts := List.chain'_cons'.mp hch
        have hht : HeadNotSpec t := by
          intro c hc
          rcases hparts.1 c (by simpa using hc) with h | h
          · rw [hs] at h; cases h
          · exact h
        exact ih.2 hht hparts.2 a
      · have hs' : isSpecChar a = false := Bool.eq_false_iff.mpr hs
        rw [collapseGo_noRun_cons_ord hs', ih.1 (List.chain'_cons'.mp hch).2]
    · intro hhd hch p
      have ha : isSpecChar a = false := hhd a rfl
      rw [collapseGo_oneSpec_cons_ord ha, ih.1 (List.chain'_cons'.mp hch).2]

/-- A list whose ends are not special is a fixed point of
`stripSpecEnds`. -/
theorem stripSpecEnds_fix {l : List Char} (h1 : HeadNotSpec l) (h2 : LastNotSpec l) :
    stripSpecEnds l = l := by
  unfold stripSpecEnds
  rw [dropWhile_eq_self_of_head h1]
  rw [dropWhile_eq_self_of_head (by
    intro c hc
    rw [List.head?_reverse] at hc
    exact h2 c hc)]
  exact List.reverse_reverse l

/-- The head of a `stripSpecEnds` result is not special. -/
theorem stripSpecEnds_head (l : List Char) : HeadNotSpec (stripSpecEnds l) := by
  intro c hc
  unfold stripSpecEnds at hc
  rw [List.head?_reverse] at hc
  by_cases hY : ((l.dropWhile isSpecChar).reverse.dropWhile isSpecChar) = []
  · rw [hY] at hc; cases hc
  · rw [getLast?_of_suffix (List.dropWhile_suffix isSpecChar) hY,
      List.getLast?_reverse] at hc
    exact head?_dropWhile_not l c hc

/-- The last character of a `stripSpecEnds` result is not special. -/
theorem stripSpecEnds_last (l : List Char) : LastNotSpec (stripSpecEnds l) := by
  intro c hc
  unfold stripSpecEnds at hc
  rw [List.getLast?_reverse] at hc
  exact head?_dropWhile_not _ c hc

/-- C6: `normalizeEcrName` is idempotent — normalizing an already
normalized registry name returns it unchanged. -/
theorem normalizeEcrName_idempotent (s : String) :
    normalizeEcrName (normalizeEcrName s) = normalizeEcrName s := by
  unfold normalizeEcrName
  set L : List Char := (s.data.map Char.toLower).map replaceInvalidChar with hL
  set r : List Char := collapseSpecRuns (stripSpecEnds L) with hr
  have hallL : AllAllowed L := by
    intro c hc
    rcases List.mem_map.mp hc with ⟨d, _, rfl⟩
    exact isEcrAllowed_replaceInvalidChar d
  have hallS : AllAllowed (stripSpecEnds L) := fun c hc => hallL c (mem_stripSpecEnds hc)
  have hallR : AllAllowed r := by
    rw [hr]
    exact collapseGo_allowed (stripSpecEnds L) RunState.noRun hallS (fun p hp => by cases hp)
  have hheadR : HeadNotSpec r := by
    rw [hr]
    exact collapseGo_head (stripSpecEnds_head L)
  have hlastR : LastNotSpec r := by
    by_cases hS : stripSpecEnds L = []
    · rw [hr, hS]
      intro c hc
      cases hc
    · rw [hr]
      exact collapseGo_last (stripSpecEnds L) hS (stripSpecEnds_last L) RunState.noRun
  have hchainR : NoSpecPair r := by
    rw [hr]
    exact collapseGo_chain (stripSpecEnds L) RunState.noRun
  have hmap1 : r.map Char.toLower = r :=
    map_id_of_mem fun c hc => toLower_fixed_of_allowed (hallR c hc)
  have hmap2 : r.map replaceInvalidChar = r :=
    map_id_of_mem fun c hc => replace_fixed_of_allowed (hallR c hc)
  have key : collapseSpecRuns (stripSpecEnds ((r.map Char.toLower).map replaceInvalidChar)) = r := by
    rw [hmap1, hmap2, stripSpecEnds_fix hheadR hlastR]
    exact (collapseGo_fix r).1 hchainR
  exact congrArg String.mk key

end ConfigEngine
